import Mathlib

/-!
Verification of the statistical aggregation engine of the `mater` repository
(`backend/src/analytics_calculator.rs`).

Shallow embedding conventions:
* Rust `f64` is modelled by `ℚ` (the aggregation arithmetic is exact on the
  rational inputs used here; `0.5` is `1/2`, `0.44` is `44/100`).
* Rust `i32` is modelled by `Int`; `usize` by `Nat`.
* Rust `Option<T>` is `Option`; `unwrap_or_default()` is `Option.getD _ 0`.
* Rust `Vec`/slices are `List`; `sort_by` on `numdate` is `List.mergeSort`
  (both are stable sorts); Rust byte-wise `String` comparison is Lean's
  lexicographic `String` order (UTF-8 byte order agrees with code-point order).
-/

namespace Mater

/-- Structure `GameStats` from `backend/src/get_game_stats.rs`: one player's
statistical line from one game. Field order and names follow the source. -/
structure GameStats where
  numdate : String
  datetext : String
  opstyle : Option Int
  quality : Option Int
  win1 : Option Int
  opponent : String
  muid : String
  win2 : Option Int
  min_per : Option ℚ
  o_rtg : Option ℚ
  usage : Option ℚ
  e_fg : Option ℚ
  ts_per : Option ℚ
  orb_per : Option ℚ
  drb_per : Option ℚ
  ast_per : Option ℚ
  to_per : Option ℚ
  dunks_made : Option Int
  dunks_att : Option Int
  rim_made : Option Int
  rim_att : Option Int
  mid_made : Option Int
  mid_att : Option Int
  two_pm : Option Int
  two_pa : Option Int
  tpm : Option Int
  tpa : Option Int
  ftm : Option Int
  fta : Option Int
  bpm_rd : Option ℚ
  obpm : Option ℚ
  dbpm : Option ℚ
  bpm_net : Option ℚ
  pts : Option ℚ
  orb : Option ℚ
  drb : Option ℚ
  ast : Option ℚ
  tov : Option ℚ
  stl : Option ℚ
  blk : Option ℚ
  stl_per : Option ℚ
  blk_per : Option ℚ
  pf : Option ℚ
  possessions : Option ℚ
  bpm : Option ℚ
  sbpm : Option ℚ
  loc : String
  tt : String
  pp : String
  inches : Option Int
  cls : String
  pid : Option Int
  year : Option Int
deriving DecidableEq

/-- Structure `PlayerSeasonAverages` from `backend/src/analytics_types.rs`:
one (player, season, team) aggregate. -/
structure PlayerSeasonAverages where
  pid : Int
  year : Int
  team : String
  player_name : String
  games_played : Int
  avg_min_per : ℚ
  avg_o_rtg : ℚ
  avg_usg : ℚ
  avg_e_fg : ℚ
  avg_ts_per : ℚ
  avg_orb_per : ℚ
  avg_drb_per : ℚ
  avg_ast_per : ℚ
  avg_to_per : ℚ
  avg_dunks_made : ℚ
  avg_dunks_att : ℚ
  avg_rim_made : ℚ
  avg_rim_att : ℚ
  avg_mid_made : ℚ
  avg_mid_att : ℚ
  avg_two_pm : ℚ
  avg_two_pa : ℚ
  avg_tpm : ℚ
  avg_tpa : ℚ
  avg_ftm : ℚ
  avg_fta : ℚ
  avg_bpm_rd : ℚ
  avg_obpm : ℚ
  avg_dbpm : ℚ
  avg_bpm_net : ℚ
  avg_pts : ℚ
  avg_orb : ℚ
  avg_drb : ℚ
  avg_ast : ℚ
  avg_tov : ℚ
  avg_stl : ℚ
  avg_blk : ℚ
  avg_stl_per : ℚ
  avg_blk_per : ℚ
  avg_pf : ℚ
  avg_possessions : ℚ
  avg_bpm : ℚ
  avg_sbpm : ℚ
  avg_inches : ℚ
  avg_opstyle : ℚ
  avg_quality : ℚ
  avg_win1 : ℚ
  avg_win2 : ℚ
deriving DecidableEq

/-- The minutes filter of `calculate_averages_for_games` (line 39 of
`analytics_calculator.rs`): `game.min_per.unwrap_or_default() > 0.0`. -/
def playedMinutes (game : GameStats) : Bool :=
  decide (0 < game.min_per.getD 0)

/-- The filtered game list of `calculate_averages_for_games` (lines 38-40):
only games where the player logged minutes. -/
def qualifyingGames (games_raw : List GameStats) : List GameStats :=
  games_raw.filter playedMinutes

/-- Sum of an optional rational per-game statistic over a slice, absent
values contributing zero (`game.field.unwrap_or_default()` summed). -/
def sumOptQ (f : GameStats → Option ℚ) (games : List GameStats) : ℚ :=
  (games.map (fun game => (f game).getD 0)).sum

/-- Sum of an optional integer per-game statistic over a slice, absent
values contributing zero (`game.field.unwrap_or_default() as f64` summed). -/
def sumOptZ (f : GameStats → Option Int) (games : List GameStats) : ℚ :=
  (games.map (fun game => (((f game).getD 0 : Int) : ℚ))).sum

/-- Function `calculate_averages_for_games` (lines 28-220 of
`analytics_calculator.rs`): filters to games with minutes, returns `none`
when no game survives, otherwise the averages record with simple per-game
means and ratio-of-sums shooting percentages. -/
def calculate_averages_for_games (games_raw : List GameStats)
    (player_pid player_year : Int) (player_team player_name : String) :
    Option PlayerSeasonAverages :=
  let games := qualifyingGames games_raw
  let games_played : Int := games.length
  if games_played = 0 then none else
  let avg_games_played : ℚ := (games.length : ℚ)
  let total_two_pm := sumOptZ (fun g => g.two_pm) games
  let total_two_pa := sumOptZ (fun g => g.two_pa) games
  let total_tpm := sumOptZ (fun g => g.tpm) games
  let total_tpa := sumOptZ (fun g => g.tpa) games
  let total_fta := sumOptZ (fun g => g.fta) games
  let total_pts := sumOptQ (fun g => g.pts) games
  let avg_e_fg : ℚ :=
    if 0 < total_two_pa + total_tpa then
      (total_two_pm + total_tpm + (1/2) * total_tpm) / (total_two_pa + total_tpa)
    else 0
  let avg_ts_per : ℚ :=
    if 0 < total_two_pa + total_tpa + (44/100) * total_fta then
      total_pts / (2 * ((total_two_pa + total_tpa) + (44/100) * total_fta))
    else 0
  some {
    pid := player_pid
    year := player_year
    team := player_team
    player_name := player_name
    games_played := games_played
    avg_min_per := sumOptQ (fun g => g.min_per) games / avg_games_played
    avg_o_rtg := sumOptQ (fun g => g.o_rtg) games / avg_games_played
    avg_usg := sumOptQ (fun g => g.usage) games / avg_games_played
    avg_e_fg := avg_e_fg
    avg_ts_per := avg_ts_per
    avg_orb_per := sumOptQ (fun g => g.orb_per) games / avg_games_played
    avg_drb_per := sumOptQ (fun g => g.drb_per) games / avg_games_played
    avg_ast_per := sumOptQ (fun g => g.ast_per) games / avg_games_played
    avg_to_per := sumOptQ (fun g => g.to_per) games / avg_games_played
    avg_dunks_made := sumOptZ (fun g => g.dunks_made) games / avg_games_played
    avg_dunks_att := sumOptZ (fun g => g.dunks_att) games / avg_games_played
    avg_rim_made := sumOptZ (fun g => g.rim_made) games / avg_games_played
    avg_rim_att := sumOptZ (fun g => g.rim_att) games / avg_games_played
    avg_mid_made := sumOptZ (fun g => g.mid_made) games / avg_games_played
    avg_mid_att := sumOptZ (fun g => g.mid_att) games / avg_games_played
    avg_two_pm := total_two_pm / avg_games_played
    avg_two_pa := total_two_pa / avg_games_played
    avg_tpm := total_tpm / avg_games_played
    avg_tpa := total_tpa / avg_games_played
    avg_ftm := sumOptZ (fun g => g.ftm) games / avg_games_played
    avg_fta := total_fta / avg_games_played
    avg_bpm_rd := sumOptQ (fun g => g.bpm_rd) games / avg_games_played
    avg_obpm := sumOptQ (fun g => g.obpm) games / avg_games_played
    avg_dbpm := sumOptQ (fun g => g.dbpm) games / avg_games_played
    avg_bpm_net := sumOptQ (fun g => g.bpm_net) games / avg_games_played
    avg_pts := total_pts / avg_games_played
    avg_orb := sumOptQ (fun g => g.orb) games / avg_games_played
    avg_drb := sumOptQ (fun g => g.drb) games / avg_games_played
    avg_ast := sumOptQ (fun g => g.ast) games / avg_games_played
    avg_tov := sumOptQ (fun g => g.tov) games / avg_games_played
    avg_stl := sumOptQ (fun g => g.stl) games / avg_games_played
    avg_blk := sumOptQ (fun g => g.blk) games / avg_games_played
    avg_stl_per := sumOptQ (fun g => g.stl_per) games / avg_games_played
    avg_blk_per := sumOptQ (fun g => g.blk_per) games / avg_games_played
    avg_pf := sumOptQ (fun g => g.pf) games / avg_games_played
    avg_possessions := sumOptQ (fun g => g.possessions) games / avg_games_played
    avg_bpm := sumOptQ (fun g => g.bpm) games / avg_games_played
    avg_sbpm := sumOptQ (fun g => g.sbpm) games / avg_games_played
    avg_inches := sumOptZ (fun g => g.inches) games / avg_games_played
    avg_opstyle := sumOptZ (fun g => g.opstyle) games / avg_games_played
    avg_quality := sumOptZ (fun g => g.quality) games / avg_games_played
    avg_win1 := sumOptZ (fun g => g.win1) games / avg_games_played
    avg_win2 := sumOptZ (fun g => g.win2) games / avg_games_played
  }

/-- The loop body of `calculate_percentile` (lines 477-483 of
`analytics_calculator.rs`): bump `count_less` on a strictly smaller data
point, `count_equal` on an equal one. -/
def percentileStep (value : ℚ) (acc : ℚ × ℚ) (data_point : ℚ) : ℚ × ℚ :=
  if data_point < value then (acc.1 + 1, acc.2)
  else if data_point = value then (acc.1, acc.2 + 1)
  else acc

/-- Function `calculate_percentile` (lines 468-488 of `analytics_calculator.rs`):
mean-rank percentile of `value` within `sorted_data`; `0` for an empty
population. -/
def calculate_percentile (value : ℚ) (sorted_data : List ℚ) : ℚ :=
  if sorted_data.isEmpty then 0 else
  let n : ℚ := (sorted_data.length : ℚ)
  let counts := sorted_data.foldl (percentileStep value) (0, 0)
  ((counts.1 + (1/2) * counts.2) / n) * 100

/-- The name-resolution pattern shared by lines 254, 391 and 454 of
`analytics_calculator.rs`:
`games.first().map_or("Unknown".to_string(), |g| g.pp.clone())`. -/
def resolvePlayerName (games : List GameStats) : String :=
  (games.head?.map (fun g => g.pp)).getD "Unknown"

/-- The player/season/team filter predicate of
`calculate_last_x_games_averages` (lines 363-367) and
`calculate_player_averages_by_date_range` (lines 439-441). -/
def matchesPlayer (player_id player_year : Int) (player_team : String)
    (game : GameStats) : Bool :=
  decide (game.pid = some player_id ∧ game.year = some player_year ∧
    game.tt = player_team)

/-- The comparison `a.numdate.cmp(&b.numdate)` used by the sort at
lines 372-374 of `analytics_calculator.rs`. -/
def numdateLe (a b : GameStats) : Bool :=
  decide (a.numdate ≤ b.numdate)

/-- Lines 362-374 of `analytics_calculator.rs`: the player's games,
sorted ascending by `numdate` (Rust `sort_by` and `List.mergeSort` are
both stable sorts). -/
def sortedPlayerGames (all_game_stats : List GameStats)
    (player_id player_year : Int) (player_team : String) : List GameStats :=
  (all_game_stats.filter (matchesPlayer player_id player_year player_team)).mergeSort
    numdateLe

/-- Lines 379-383 of `analytics_calculator.rs`: keep the most recent
`num_games` entries of the chronologically sorted list
(`skip(len - num_games)`), or the whole list when it is short enough. -/
def lastNSlice (player_games : List GameStats) (num_games : Nat) :
    List GameStats :=
  if player_games.length > num_games then
    player_games.drop (player_games.length - num_games)
  else player_games

/-- Function `calculate_last_x_games_averages` (lines 351-401 of
`analytics_calculator.rs`). -/
def calculate_last_x_games_averages (all_game_stats : List GameStats)
    (player_id player_year : Int) (player_team : String) (num_games : Nat) :
    Option PlayerSeasonAverages :=
  let slice_games :=
    lastNSlice (sortedPlayerGames all_game_stats player_id player_year player_team)
      num_games
  if slice_games.isEmpty then none
  else
    calculate_averages_for_games slice_games player_id player_year player_team
      (resolvePlayerName slice_games)

/-- The filter of `calculate_player_averages_by_date_range`
(lines 437-446 of `analytics_calculator.rs`): player key match and
`numdate` within the closed interval, by string comparison. -/
def dateRangeGames (all_game_stats : List GameStats)
    (player_id player_year : Int) (player_team : String)
    (start_date_num end_date_num : String) : List GameStats :=
  all_game_stats.filter (fun game =>
    matchesPlayer player_id player_year player_team game &&
      decide (start_date_num ≤ game.numdate ∧ game.numdate ≤ end_date_num))

/-- Function `calculate_player_averages_by_date_range` (lines 423-464 of
`analytics_calculator.rs`). -/
def calculate_player_averages_by_date_range (all_game_stats : List GameStats)
    (player_id player_year : Int) (player_team : String)
    (start_date_num end_date_num : String) : Option PlayerSeasonAverages :=
  let filtered_games :=
    dateRangeGames all_game_stats player_id player_year player_team
      start_date_num end_date_num
  if filtered_games.isEmpty then none
  else
    calculate_averages_for_games filtered_games player_id player_year
      player_team (resolvePlayerName filtered_games)

/-- Modelled from the spec: section 4.2 name resolution, `player display
name is taken from the first record with a non-empty name field in the
slice; defaults to a sentinel "Unknown" if none present`. The source
(lines 254, 391, 454) has no such non-emptiness test; this definition
exists to be compared against `resolvePlayerName`. -/
def specResolvedName (games : List GameStats) : String :=
  match games.find? (fun g => !(g.pp == "")) with
  | some g => g.pp
  | none => "Unknown"

/-- A game record with every optional field absent and every string empty,
used as a base for concrete test records. -/
def blankGame : GameStats where
  numdate := ""
  datetext := ""
  opstyle := none
  quality := none
  win1 := none
  opponent := ""
  muid := ""
  win2 := none
  min_per := none
  o_rtg := none
  usage := none
  e_fg := none
  ts_per := none
  orb_per := none
  drb_per := none
  ast_per := none
  to_per := none
  dunks_made := none
  dunks_att := none
  rim_made := none
  rim_att := none
  mid_made := none
  mid_att := none
  two_pm := none
  two_pa := none
  tpm := none
  tpa := none
  ftm := none
  fta := none
  bpm_rd := none
  obpm := none
  dbpm := none
  bpm_net := none
  pts := none
  orb := none
  drb := none
  ast := none
  tov := none
  stl := none
  blk := none
  stl_per := none
  blk_per := none
  pf := none
  possessions := none
  bpm := none
  sbpm := none
  loc := ""
  tt := ""
  pp := ""
  inches := none
  cls := ""
  pid := none
  year := none

/-- Spec section 8 scenario, game 1: 20 minutes, 10 points. -/
def dukeG1 : GameStats :=
  { blankGame with
    numdate := "20260101"
    tt := "DUKE"
    pp := "P"
    pid := some 42
    year := some 2026
    min_per := some 20
    pts := some 10 }

/-- Spec section 8 scenario, game 2: 0 minutes, 5 points. -/
def dukeG2 : GameStats :=
  { blankGame with
    numdate := "20260102"
    tt := "DUKE"
    pp := "P"
    pid := some 42
    year := some 2026
    min_per := some 0
    pts := some 5 }

/-- Spec section 8 scenario, game 3: 30 minutes, 20 points. -/
def dukeG3 : GameStats :=
  { blankGame with
    numdate := "20260103"
    tt := "DUKE"
    pp := "P"
    pid := some 42
    year := some 2026
    min_per := some 30
    pts := some 30 }

/-- Separation example, game A: 1-of-1 on twos, per-game eFG 1. -/
def sepA : GameStats :=
  { blankGame with
    min_per := some 20
    two_pm := some 1
    two_pa := some 1
    e_fg := some 1 }

/-- Separation example, game B: 0-of-3 on twos, per-game eFG 0. -/
def sepB : GameStats :=
  { blankGame with
    min_per := some 25
    two_pm := some 0
    two_pa := some 3
    e_fg := some 0 }

/-- True-shooting example: 20 points on 10 two-point attempts, 5
three-point attempts, 25 free-throw attempts. -/
def tsG : GameStats :=
  { blankGame with
    min_per := some 30
    two_pa := some 10
    tpa := some 5
    fta := some 25
    pts := some 20 }

/-- Name-resolution example, first game of the slice: empty name. -/
def cg1 : GameStats :=
  { blankGame with
    numdate := "20240101"
    tt := "A"
    pp := ""
    pid := some 1
    year := some 2024
    min_per := some 10 }

/-- Name-resolution example, second game of the slice: named "Bob". -/
def cg2 : GameStats :=
  { blankGame with
    numdate := "20240102"
    tt := "A"
    pp := "Bob"
    pid := some 1
    year := some 2024
    min_per := some 12 }

/-! ### Helper lemmas about the aggregator -/

/-- The Rust filter condition `min_per.unwrap_or_default() > 0.0` holds
exactly when the minutes indicator is present and positive. -/
lemma playedMinutes_iff (g : GameStats) :
    playedMinutes g = true ↔ ∃ m, g.min_per = some m ∧ 0 < m := by
  cases h : g.min_per with
  | none => simp [playedMinutes, h]
  | some m => simp [playedMinutes, h]

lemma calculate_averages_eq_none_iff (gs : List GameStats)
    (p y : Int) (t n : String) :
    calculate_averages_for_games gs p y t n = none ↔ qualifyingGames gs = [] := by
  by_cases h : ((qualifyingGames gs).length : Int) = 0
  · have h0 : qualifyingGames gs = [] := by
      have := h
      simpa [List.length_eq_zero] using Int.ofNat.inj this
    simp [calculate_averages_for_games, h, h0]
  · have h0 : qualifyingGames gs ≠ [] := by
      intro hc
      exact h (by simp [hc])
    simp [calculate_averages_for_games, h, h0]

lemma calculate_averages_some_fields (gs : List GameStats)
    (p y : Int) (t n : String) (rec : PlayerSeasonAverages)
    (h : calculate_averages_for_games gs p y t n = some rec) :
    rec.games_played = ((qualifyingGames gs).length : Int) ∧
    rec.player_name = n ∧
    rec.avg_e_fg =
      (if 0 < sumOptZ (fun g => g.two_pa) (qualifyingGames gs) +
            sumOptZ (fun g => g.tpa) (qualifyingGames gs) then
        (sumOptZ (fun g => g.two_pm) (qualifyingGames gs) +
            sumOptZ (fun g => g.tpm) (qualifyingGames gs) +
            (1/2) * sumOptZ (fun g => g.tpm) (qualifyingGames gs)) /
          (sumOptZ (fun g => g.two_pa) (qualifyingGames gs) +
            sumOptZ (fun g => g.tpa) (qualifyingGames gs))
      else 0) ∧
    rec.avg_ts_per =
      (if 0 < sumOptZ (fun g => g.two_pa) (qualifyingGames gs) +
            sumOptZ (fun g => g.tpa) (qualifyingGames gs) +
            (44/100) * sumOptZ (fun g => g.fta) (qualifyingGames gs) then
        sumOptQ (fun g => g.pts) (qualifyingGames gs) /
          (2 * ((sumOptZ (fun g => g.two_pa) (qualifyingGames gs) +
            sumOptZ (fun g => g.tpa) (qualifyingGames gs)) +
            (44/100) * sumOptZ (fun g => g.fta) (qualifyingGames gs)))
      else 0) := by
  simp only [calculate_averages_for_games] at h
  split at h
  · exact absurd h (by simp)
  · obtain rfl := Option.some.inj h
    exact ⟨rfl, rfl, rfl, rfl⟩

/-! ### Helper lemmas about the percentile ranker -/

lemma foldl_percentileStep (value : ℚ) (l : List ℚ) :
    ∀ a b : ℚ,
      l.foldl (percentileStep value) (a, b) =
        (a + (l.countP (fun x => decide (x < value)) : ℚ),
          b + (l.countP (fun x => decide (x = value)) : ℚ)) := by
  induction l with
  | nil => intro a b; simp
  | cons x xs ih =>
    intro a b
    simp only [List.foldl_cons, percentileStep]
    by_cases h1 : x < value
    · have hne : ¬ x = value := ne_of_lt h1
      rw [if_pos h1, ih]
      simp [List.countP_cons, h1, hne]
      ring
    · by_cases h2 : x = value
      · rw [if_neg h1, if_pos h2, ih]
        simp [List.countP_cons, h1, h2]
        ring
      · rw [if_neg h1, if_neg h2, ih]
        simp [List.countP_cons, h1, h2]

/-- The counting loop of `calculate_percentile` computes the number of
population values strictly below, and the number equal to, the queried
value. -/
lemma calculate_percentile_eq_counts (value : ℚ) (pop : List ℚ)
    (h : pop ≠ []) :
    calculate_percentile value pop =
      ((pop.countP (fun x => decide (x < value)) : ℚ) +
          (1/2) * (pop.countP (fun x => decide (x = value)) : ℚ)) /
        (pop.length : ℚ) * 100 := by
  have hE : pop.isEmpty = false := by
    cases pop with
    | nil => exact absurd rfl h
    | cons x xs => rfl
  simp only [calculate_percentile, hE, Bool.false_eq_true, if_false]
  rw [foldl_percentileStep]
  simp

/-- Splitting the count of values at most `v` into strictly-below and
equal counts. -/
lemma countP_le_split (v : ℚ) (l : List ℚ) :
    l.countP (fun x => decide (x ≤ v)) =
      l.countP (fun x => decide (x < v)) + l.countP (fun x => decide (x = v)) := by
  induction l with
  | nil => simp
  | cons x xs ih =>
    simp only [List.countP_cons, decide_eq_true_eq]
    rcases lt_trichotomy x v with h | h | h
    · have h1 : x ≤ v := le_of_lt h
      have h2 : ¬ x = v := ne_of_lt h
      simp only [h, h1, h2, if_true, if_false, ih]
      omega
    · have h1 : x ≤ v := le_of_eq h
      have h2 : ¬ x < v := by rw [h]; exact lt_irrefl v
      rw [if_pos h1, if_neg h2, if_pos h, ih]
      omega
    · have h1 : ¬ x ≤ v := not_le.mpr h
      have h2 : ¬ x < v := lt_asymm h
      have h3 : ¬ x = v := ne_of_gt h
      simp only [h1, h2, h3, if_false, ih]
      omega

/-- For a fixed list, the weighted count `2·(strictly below) + (equal)` is
monotone in the queried value. -/
lemma counts_pair_mono (v1 v2 : ℚ) (h : v1 ≤ v2) (l : List ℚ) :
    2 * l.countP (fun x => decide (x < v1)) + l.countP (fun x => decide (x = v1)) ≤
      2 * l.countP (fun x => decide (x < v2)) + l.countP (fun x => decide (x = v2)) := by
  rcases eq_or_lt_of_le h with rfl | hlt
  · exact le_refl _
  · have hA : l.countP (fun x => decide (x < v1)) ≤ l.countP (fun x => decide (x < v2)) := by
      apply List.countP_mono_left
      intro x _ hx
      simp only [decide_eq_true_eq] at hx ⊢
      exact lt_trans hx hlt
    have hB : l.countP (fun x => decide (x ≤ v1)) ≤ l.countP (fun x => decide (x < v2)) := by
      apply List.countP_mono_left
      intro x _ hx
      simp only [decide_eq_true_eq] at hx ⊢
      exact lt_of_le_of_lt hx hlt
    have hC := countP_le_split v1 l
    omega

/-! ### Concrete evaluation helpers -/

lemma qualifying_sep_eval : qualifyingGames [sepA, sepB] = [sepA, sepB] := by
  decide

lemma sep_sums_eval :
    sumOptZ (fun g => g.two_pm) [sepA, sepB] = 1 ∧
    sumOptZ (fun g => g.tpm) [sepA, sepB] = 0 ∧
    sumOptZ (fun g => g.two_pa) [sepA, sepB] = 4 ∧
    sumOptZ (fun g => g.tpa) [sepA, sepB] = 0 := by
  refine ⟨?_, ?_, ?_, ?_⟩ <;> norm_num [sumOptZ, sepA, sepB, blankGame]

lemma qualifying_tsg_eval : qualifyingGames [tsG] = [tsG] := by
  decide

lemma tsg_sums_eval :
    sumOptZ (fun g => g.two_pa) [tsG] = 10 ∧
    sumOptZ (fun g => g.tpa) [tsG] = 5 ∧
    sumOptZ (fun g => g.fta) [tsG] = 25 ∧
    sumOptQ (fun g => g.pts) [tsG] = 20 := by
  refine ⟨?_, ?_, ?_, ?_⟩ <;> norm_num [sumOptZ, sumOptQ, tsG, blankGame]

/-- The summed-totals eFG of the two separation games is 1/4. -/
lemma sep_avg_e_fg :
    (calculate_averages_for_games [sepA, sepB] 7 2025 "T" "S").map
      (fun r => r.avg_e_fg) = some (1/4) := by
  rcases hE : calculate_averages_for_games [sepA, sepB] 7 2025 "T" "S" with _ | rec
  · rw [calculate_averages_eq_none_iff] at hE
    exact absurd hE (by decide)
  · obtain ⟨-, -, hefg, -⟩ :=
      calculate_averages_some_fields [sepA, sepB] 7 2025 "T" "S" rec hE
    obtain ⟨h1, h2, h3, h4⟩ := sep_sums_eval
    rw [qualifying_sep_eval, h1, h2, h3, h4] at hefg
    simp only [Option.map_some']
    rw [hefg]
    norm_num

/-! ### Helper lemmas about slice selection -/

lemma numdateLe_trans (a b c : GameStats) (hab : numdateLe a b = true)
    (hbc : numdateLe b c = true) : numdateLe a c = true := by
  simp only [numdateLe, decide_eq_true_eq] at hab hbc ⊢
  exact le_trans hab hbc

lemma numdateLe_total (a b : GameStats) : numdateLe a b || numdateLe b a := by
  simp only [numdateLe, Bool.or_eq_true, decide_eq_true_eq]
  exact le_total a.numdate b.numdate

lemma sortedPlayerGames_perm (all : List GameStats) (pid yr : Int) (tm : String) :
    (sortedPlayerGames all pid yr tm).Perm (all.filter (matchesPlayer pid yr tm)) :=
  List.mergeSort_perm (all.filter (matchesPlayer pid yr tm)) numdateLe

lemma sortedPlayerGames_sorted (all : List GameStats) (pid yr : Int) (tm : String) :
    List.Pairwise (fun a b => a.numdate ≤ b.numdate) (sortedPlayerGames all pid yr tm) := by
  have h := @List.sorted_mergeSort GameStats numdateLe
    (fun a b c hab hbc => numdateLe_trans a b c hab hbc)
    (fun a b => numdateLe_total a b)
    (all.filter (matchesPlayer pid yr tm))
  exact h.imp (by simp [numdateLe])

lemma lastNSlice_eq_drop (l : List GameStats) (N : Nat) :
    lastNSlice l N = l.drop (l.length - N) := by
  unfold lastNSlice
  split
  · rfl
  · have h0 : l.length - N = 0 := by omega
    rw [h0, List.drop_zero]

lemma lastNSlice_all (l : List GameStats) (N : Nat) (h : l.length ≤ N) :
    lastNSlice l N = l := by
  unfold lastNSlice
  rw [if_neg (by omega)]

/-! ### Claims -/

/-- C1: the function `calculate_averages_for_games` returns `none` (NoData) exactly when
no record in the slice has a minutes-played indicator that is present and
positive; when it returns a record, `games_played` equals the exact count
of input records with minutes-played > 0, with absent minutes counting as
not played. -/
theorem claim_C1 (gs : List GameStats) (pid yr : Int) (tm nm : String) :
    (∀ g : GameStats, playedMinutes g = true ↔ ∃ m, g.min_per = some m ∧ 0 < m) ∧
    (calculate_averages_for_games gs pid yr tm nm = none ↔
      ∀ g ∈ gs, ¬ ∃ m, g.min_per = some m ∧ 0 < m) ∧
    (∀ rec, calculate_averages_for_games gs pid yr tm nm = some rec →
      rec.games_played = ((gs.countP playedMinutes : ℕ) : Int)) := by
  refine ⟨playedMinutes_iff, ?_, ?_⟩
  · rw [calculate_averages_eq_none_iff]
    constructor
    · intro h g hg hex
      have hpm : playedMinutes g = true := (playedMinutes_iff g).mpr hex
      have hmem : g ∈ qualifyingGames gs := List.mem_filter.mpr ⟨hg, hpm⟩
      rw [h] at hmem
      exact absurd hmem (List.not_mem_nil g)
    · intro h
      apply List.filter_eq_nil_iff.mpr
      intro g hg hpm
      exact h g hg ((playedMinutes_iff g).mp hpm)
  · intro rec h
    have hgp := (calculate_averages_some_fields gs pid yr tm nm rec h).1
    rw [hgp, qualifyingGames, List.countP_eq_length_filter]

/-- C1 witness, the spec section 8 scenario: three games with minutes
20, 0 and 30; the zero-minute game is dropped, so `games_played = 2`. -/
theorem claim_C1_witness :
    (calculate_averages_for_games [dukeG1, dukeG2, dukeG3] 42 2026 "DUKE" "P").map
      (fun r => r.games_played) = some 2 := by
  rcases hE : calculate_averages_for_games [dukeG1, dukeG2, dukeG3] 42 2026 "DUKE" "P"
    with _ | rec
  · rw [calculate_averages_eq_none_iff] at hE
    exact absurd hE (by decide)
  · have h := (claim_C1 [dukeG1, dukeG2, dukeG3] 42 2026 "DUKE" "P").2.2 rec hE
    simp only [Option.map_some']
    rw [h]
    decide

/-- C2: for every produced record, `avg_e_fg` is the ratio of summed makes
(with the extra half of three-point makes) to summed attempts over the
minutes-filtered games, absent fields summing as zero, and `0` when the
summed attempts are zero; concretely it differs from the mean of the
per-game eFG values. -/
theorem claim_C2 (gs : List GameStats) (pid yr : Int) (tm nm : String) :
    (∀ rec, calculate_averages_for_games gs pid yr tm nm = some rec →
      (0 < sumOptZ (fun g => g.two_pa) (qualifyingGames gs) +
          sumOptZ (fun g => g.tpa) (qualifyingGames gs) →
        rec.avg_e_fg =
          (sumOptZ (fun g => g.two_pm) (qualifyingGames gs) +
              sumOptZ (fun g => g.tpm) (qualifyingGames gs) +
              (1/2) * sumOptZ (fun g => g.tpm) (qualifyingGames gs)) /
            (sumOptZ (fun g => g.two_pa) (qualifyingGames gs) +
              sumOptZ (fun g => g.tpa) (qualifyingGames gs))) ∧
      (sumOptZ (fun g => g.two_pa) (qualifyingGames gs) +
          sumOptZ (fun g => g.tpa) (qualifyingGames gs) = 0 →
        rec.avg_e_fg = 0)) ∧
    ((calculate_averages_for_games [sepA, sepB] 7 2025 "T" "S").map
        (fun r => r.avg_e_fg) = some (1/4) ∧
      (sepA.e_fg.getD 0 + sepB.e_fg.getD 0) / 2 = (1/2 : ℚ) ∧
      (1/4 : ℚ) ≠ 1/2) := by
  constructor
  · intro rec h
    obtain ⟨-, -, hefg, -⟩ := calculate_averages_some_fields gs pid yr tm nm rec h
    constructor
    · intro hpos
      rw [hefg, if_pos hpos]
    · intro hz
      rw [hefg, if_neg (by rw [hz]; exact lt_irrefl 0)]
  · refine ⟨sep_avg_e_fg, ?_, by norm_num⟩
    norm_num [sepA, sepB, blankGame]

/-- C2 witness: on the two separation games the summed-totals eFG is
1/4 = (1 + 0 + 0.5·0)/(1 + 3). -/
theorem claim_C2_witness :
    (calculate_averages_for_games [sepA, sepB] 7 2025 "T" "S").map
      (fun r => r.avg_e_fg) = some (1/4) := by
  rcases hE : calculate_averages_for_games [sepA, sepB] 7 2025 "T" "S" with _ | rec
  · rw [calculate_averages_eq_none_iff] at hE
    exact absurd hE (by decide)
  · obtain ⟨h1, h2, h3, h4⟩ := sep_sums_eval
    have hpos :
        0 < sumOptZ (fun g => g.two_pa) (qualifyingGames [sepA, sepB]) +
          sumOptZ (fun g => g.tpa) (qualifyingGames [sepA, sepB]) := by
      rw [qualifying_sep_eval, h3, h4]
      norm_num
    have h := ((claim_C2 [sepA, sepB] 7 2025 "T" "S").1 rec hE).1 hpos
    rw [qualifying_sep_eval, h1, h2, h3, h4] at h
    simp only [Option.map_some']
    rw [h]
    norm_num

/-- C3: for every produced record, `avg_ts_per` equals total points over
`2 × (summed two-point attempts + summed three-point attempts + 0.44 ×
summed free-throw attempts)` on the minutes-filtered games, absent fields
summing as zero, and `0` when that denominator is zero. -/
theorem claim_C3 (gs : List GameStats) (pid yr : Int) (tm nm : String) :
    ∀ rec, calculate_averages_for_games gs pid yr tm nm = some rec →
      (0 < sumOptZ (fun g => g.two_pa) (qualifyingGames gs) +
          sumOptZ (fun g => g.tpa) (qualifyingGames gs) +
          (44/100) * sumOptZ (fun g => g.fta) (qualifyingGames gs) →
        rec.avg_ts_per =
          sumOptQ (fun g => g.pts) (qualifyingGames gs) /
            (2 * ((sumOptZ (fun g => g.two_pa) (qualifyingGames gs) +
              sumOptZ (fun g => g.tpa) (qualifyingGames gs)) +
              (44/100) * sumOptZ (fun g => g.fta) (qualifyingGames gs)))) ∧
      (sumOptZ (fun g => g.two_pa) (qualifyingGames gs) +
          sumOptZ (fun g => g.tpa) (qualifyingGames gs) +
          (44/100) * sumOptZ (fun g => g.fta) (qualifyingGames gs) = 0 →
        rec.avg_ts_per = 0) := by
  intro rec h
  obtain ⟨-, -, -, hts⟩ := calculate_averages_some_fields gs pid yr tm nm rec h
  constructor
  · intro hpos
    rw [hts, if_pos hpos]
  · intro hz
    rw [hts, if_neg (by rw [hz]; exact lt_irrefl 0)]

/-- C3 witness: one game, 20 points on 10 + 5 attempts and 25 free throws;
TS% is 20 / (2 × (15 + 0.44 × 25)) = 5/13. -/
theorem claim_C3_witness :
    (calculate_averages_for_games [tsG] 3 2024 "T" "N").map
      (fun r => r.avg_ts_per) = some (5/13) := by
  rcases hE : calculate_averages_for_games [tsG] 3 2024 "T" "N" with _ | rec
  · rw [calculate_averages_eq_none_iff] at hE
    exact absurd hE (by decide)
  · obtain ⟨h1, h2, h3, h4⟩ := tsg_sums_eval
    have hpos :
        0 < sumOptZ (fun g => g.two_pa) (qualifyingGames [tsG]) +
          sumOptZ (fun g => g.tpa) (qualifyingGames [tsG]) +
          (44/100) * sumOptZ (fun g => g.fta) (qualifyingGames [tsG]) := by
      rw [qualifying_tsg_eval, h1, h2, h3]
      norm_num
    have h := (claim_C3 [tsG] 3 2024 "T" "N" rec hE).1 hpos
    rw [qualifying_tsg_eval, h1, h2, h3, h4] at h
    simp only [Option.map_some']
    rw [h]
    norm_num

/-- C4: the function `calculate_percentile` returns 0 on the empty population, and on a
non-empty population returns
`((count strictly less) + 0.5 × (count equal)) / size × 100`. -/
theorem claim_C4 :
    (∀ value : ℚ, calculate_percentile value [] = 0) ∧
    (∀ (value : ℚ) (pop : List ℚ), pop ≠ [] →
      calculate_percentile value pop =
        ((pop.countP (fun x => decide (x < value)) : ℚ) +
            (1/2) * (pop.countP (fun x => decide (x = value)) : ℚ)) /
          (pop.length : ℚ) * 100) :=
  ⟨fun _ => rfl, fun value pop h => calculate_percentile_eq_counts value pop h⟩

/-- C4 witness, the spec section 8 example: the percentile of 10 in
[5, 10, 10, 15, 20] is (1 + 0.5 × 2)/5 × 100 = 40. -/
theorem claim_C4_witness :
    calculate_percentile 10 [5, 10, 10, 15, 20] = 40 := by
  rw [claim_C4.2 10 [5, 10, 10, 15, 20] (by decide)]
  have hlt : List.countP (fun x => decide (x < 10)) [(5:ℚ), 10, 10, 15, 20] = 1 := by
    decide
  have heq : List.countP (fun x => decide (x = 10)) [(5:ℚ), 10, 10, 15, 20] = 2 := by
    decide
  rw [hlt, heq]
  norm_num

/-- C8: for a fixed population, the percentile rank is monotone
non-decreasing in the queried value. -/
theorem claim_C8 (v1 v2 : ℚ) (pop : List ℚ) (h : v1 ≤ v2) :
    calculate_percentile v1 pop ≤ calculate_percentile v2 pop := by
  by_cases hp : pop = []
  · subst hp
    exact le_refl 0
  · rw [calculate_percentile_eq_counts v1 pop hp,
      calculate_percentile_eq_counts v2 pop hp]
    have hn : (0 : ℚ) < (pop.length : ℚ) := by
      exact_mod_cast List.length_pos.mpr hp
    have hc := counts_pair_mono v1 v2 h pop
    have hcq :
        2 * (pop.countP (fun x => decide (x < v1)) : ℚ) +
            (pop.countP (fun x => decide (x = v1)) : ℚ) ≤
          2 * (pop.countP (fun x => decide (x < v2)) : ℚ) +
            (pop.countP (fun x => decide (x = v2)) : ℚ) := by
      exact_mod_cast hc
    have hnum :
        (pop.countP (fun x => decide (x < v1)) : ℚ) +
            (1/2) * (pop.countP (fun x => decide (x = v1)) : ℚ) ≤
          (pop.countP (fun x => decide (x < v2)) : ℚ) +
            (1/2) * (pop.countP (fun x => decide (x = v2)) : ℚ) := by
      linarith
    exact mul_le_mul_of_nonneg_right ((div_le_div_iff_of_pos_right hn).mpr hnum) (by norm_num)

/-- C8 witness: in the population [0, 1, 2], the rank of 1 is at most the
rank of 2. -/
theorem claim_C8_witness :
    calculate_percentile 1 [0, 1, 2] ≤ calculate_percentile 2 [0, 1, 2] :=
  claim_C8 1 2 [0, 1, 2] (by norm_num)

/-- C9: on a non-empty population in which every value equals the queried
value, the percentile is exactly 50 (the computation is exact: no strict
predecessors and the half-weighted full tie give half the population). -/
theorem claim_C9 (v : ℚ) (pop : List ℚ) (hne : pop ≠ [])
    (hall : ∀ x ∈ pop, x = v) :
    calculate_percentile v pop = 50 := by
  rw [calculate_percentile_eq_counts v pop hne]
  have h1 : pop.countP (fun x => decide (x < v)) = 0 :=
    List.countP_eq_zero.mpr (fun x hx => by simp [hall x hx])
  have h2 : pop.countP (fun x => decide (x = v)) = pop.length :=
    List.countP_eq_length.mpr (fun x hx => by simp [hall x hx])
  rw [h1, h2]
  have hn : (pop.length : ℚ) ≠ 0 := by
    intro hc
    rw [Nat.cast_eq_zero] at hc
    exact hne (List.length_eq_zero.mp hc)
  push_cast
  field_simp
  ring

/-- C9 witness: the percentile of 3 in [3, 3, 3] is exactly 50. -/
theorem claim_C9_witness : calculate_percentile 3 [3, 3, 3] = 50 :=
  claim_C9 3 [3, 3, 3] (by decide) (by decide)

/-- C10: the function `calculate_percentile` only counts elements below or equal to the
queried value, so permuting the population leaves the result unchanged:
the documented sortedness precondition is not needed for a single rank. -/
theorem claim_C10 (v : ℚ) (p1 p2 : List ℚ) (h : p1.Perm p2) :
    calculate_percentile v p1 = calculate_percentile v p2 := by
  by_cases hp : p1 = []
  · subst hp
    rw [← h.nil_eq]
  · have hp2 : p2 ≠ [] := by
      intro hc
      rw [hc] at h
      exact hp h.eq_nil
    rw [calculate_percentile_eq_counts v p1 hp,
      calculate_percentile_eq_counts v p2 hp2,
      h.countP_eq, h.countP_eq, h.length_eq]

/-- C10 witness: the rank of 1 is the same in [1, 2] and its permutation
[2, 1]. -/
theorem claim_C10_witness :
    calculate_percentile 1 [1, 2] = calculate_percentile 1 [2, 1] :=
  claim_C10 1 [1, 2] [2, 1] (by decide)

/-- C5 counterexample: in a slice whose first record has an empty name
while its second record is named "Bob", the resulting record carries the
empty name of the first record, not the first non-empty name "Bob" that
the claim requires. -/
theorem claim_C5_counterexample :
    ((calculate_last_x_games_averages [cg1, cg2] 1 2024 "A" 5).map
        (fun r => r.player_name) = some "") ∧
    specResolvedName [cg1, cg2] = "Bob" ∧
    ("" : String) ≠ "Bob" := by
  refine ⟨?_, by decide, by decide⟩
  have hfilter : [cg1, cg2].filter (matchesPlayer 1 2024 "A") = [cg1, cg2] := by
    decide
  have hle : ("20240101" : String) ≤ "20240102" := by
    rw [String.le_iff_toList_le]
    decide
  have hsort : List.Pairwise (fun a b => numdateLe a b = true) [cg1, cg2] := by
    refine List.pairwise_cons.mpr ⟨?_, List.pairwise_singleton _ _⟩
    intro b hb
    rw [List.mem_singleton] at hb
    subst hb
    exact decide_eq_true hle
  have hspg : sortedPlayerGames [cg1, cg2] 1 2024 "A" = [cg1, cg2] := by
    unfold sortedPlayerGames
    rw [hfilter, List.mergeSort_of_sorted hsort]
  have hcalc : calculate_last_x_games_averages [cg1, cg2] 1 2024 "A" 5 =
      calculate_averages_for_games [cg1, cg2] 1 2024 "A" "" := by
    unfold calculate_last_x_games_averages
    rw [hspg]
    rfl
  rw [hcalc]
  rcases hE : calculate_averages_for_games [cg1, cg2] 1 2024 "A" "" with _ | rec
  · rw [calculate_averages_eq_none_iff] at hE
    exact absurd hE (by decide)
  · have hn := (calculate_averages_some_fields [cg1, cg2] 1 2024 "A" "" rec hE).2.1
    simp only [Option.map_some']
    rw [hn]

/-- C5 amended: the display name in the produced averages record is the
name field of the FIRST record of the selected slice, whatever it is
(possibly empty); the sentinel "Unknown" is used only for an empty slice,
which never produces a record. -/
theorem claim_C5_amended :
    (∀ (all : List GameStats) (pid yr : Int) (tm : String) (N : Nat),
      (calculate_last_x_games_averages all pid yr tm N).map
          (fun r => r.player_name) =
        (calculate_last_x_games_averages all pid yr tm N).map (fun _ =>
          resolvePlayerName (lastNSlice (sortedPlayerGames all pid yr tm) N))) ∧
    (∀ (all : List GameStats) (pid yr : Int) (tm s e : String),
      (calculate_player_averages_by_date_range all pid yr tm s e).map
          (fun r => r.player_name) =
        (calculate_player_averages_by_date_range all pid yr tm s e).map
          (fun _ => resolvePlayerName (dateRangeGames all pid yr tm s e))) ∧
    (resolvePlayerName [] = "Unknown") ∧
    (∀ (g : GameStats) (gs : List GameStats), resolvePlayerName (g :: gs) = g.pp) := by
  refine ⟨?_, ?_, rfl, fun g gs => rfl⟩
  · intro all pid yr tm N
    rcases hE : calculate_last_x_games_averages all pid yr tm N with _ | rec
    · simp
    · simp only [calculate_last_x_games_averages] at hE
      split at hE
      · exact Option.noConfusion hE
      · have hn := (calculate_averages_some_fields _ pid yr tm _ rec hE).2.1
        simp only [Option.map_some']
        rw [hn]
  · intro all pid yr tm s e
    rcases hE : calculate_player_averages_by_date_range all pid yr tm s e with _ | rec
    · simp
    · simp only [calculate_player_averages_by_date_range] at hE
      split at hE
      · exact Option.noConfusion hE
      · have hn := (calculate_averages_some_fields _ pid yr tm _ rec hE).2.1
        simp only [Option.map_some']
        rw [hn]

/-- C6: the last-N selection is exactly the records matching the player
key, sorted ascending by the chronological key, restricted to the final N
entries of that order; with fewer than N matching games all of them are
used, and the function aggregates exactly this slice. -/
theorem claim_C6 (all : List GameStats) (pid yr : Int) (tm : String) (N : Nat) :
    ((sortedPlayerGames all pid yr tm).Perm
        (all.filter (matchesPlayer pid yr tm))) ∧
    (∀ g : GameStats, matchesPlayer pid yr tm g = true ↔
        (g.pid = some pid ∧ g.year = some yr ∧ g.tt = tm)) ∧
    List.Pairwise (fun a b => a.numdate ≤ b.numdate)
      (lastNSlice (sortedPlayerGames all pid yr tm) N) ∧
    (lastNSlice (sortedPlayerGames all pid yr tm) N =
      (sortedPlayerGames all pid yr tm).drop
        ((sortedPlayerGames all pid yr tm).length - N)) ∧
    ((lastNSlice (sortedPlayerGames all pid yr tm) N).length =
      min N (all.filter (matchesPlayer pid yr tm)).length) ∧
    ((all.filter (matchesPlayer pid yr tm)).length ≤ N →
      (lastNSlice (sortedPlayerGames all pid yr tm) N).Perm
        (all.filter (matchesPlayer pid yr tm))) ∧
    (calculate_last_x_games_averages all pid yr tm N =
      if lastNSlice (sortedPlayerGames all pid yr tm) N = [] then none
      else
        calculate_averages_for_games
          (lastNSlice (sortedPlayerGames all pid yr tm) N) pid yr tm
          (resolvePlayerName (lastNSlice (sortedPlayerGames all pid yr tm) N))) := by
  have hlen : (sortedPlayerGames all pid yr tm).length =
      (all.filter (matchesPlayer pid yr tm)).length :=
    (sortedPlayerGames_perm all pid yr tm).length_eq
  refine ⟨sortedPlayerGames_perm all pid yr tm, ?_, ?_, lastNSlice_eq_drop _ N, ?_, ?_, ?_⟩
  · intro g
    simp [matchesPlayer]
  · rw [lastNSlice_eq_drop]
    exact (sortedPlayerGames_sorted all pid yr tm).sublist (List.drop_sublist _ _)
  · rw [lastNSlice_eq_drop, List.length_drop]
    omega
  · intro h
    rw [lastNSlice_all _ _ (by omega)]
    exact sortedPlayerGames_perm all pid yr tm
  · by_cases hs : lastNSlice (sortedPlayerGames all pid yr tm) N = []
    · rw [if_pos hs]
      simp only [calculate_last_x_games_averages, hs]
      rfl
    · rw [if_neg hs]
      simp only [calculate_last_x_games_averages]
      rw [if_neg (by simpa [List.isEmpty_iff] using hs)]

/-- C6 witness: with two matching games and N = 5 the whole matching set
is selected. -/
theorem claim_C6_witness :
    (lastNSlice (sortedPlayerGames [cg1, cg2] 1 2024 "A") 5).Perm
      ([cg1, cg2].filter (matchesPlayer 1 2024 "A")) :=
  (claim_C6 [cg1, cg2] 1 2024 "A" 5).2.2.2.2.2.1 (by decide)

/-- C7: the date-range selection keeps exactly the records matching the
player key whose chronological key lies in the closed interval
`[start, end]` under the string order; in particular a matching game whose
key equals either endpoint is included, and the function aggregates
exactly this slice. -/
theorem claim_C7 (all : List GameStats) (pid yr : Int) (tm s e : String) :
    (∀ g : GameStats, g ∈ dateRangeGames all pid yr tm s e ↔
      (g ∈ all ∧ g.pid = some pid ∧ g.year = some yr ∧ g.tt = tm ∧
        s ≤ g.numdate ∧ g.numdate ≤ e)) ∧
    (∀ g ∈ all, g.pid = some pid → g.year = some yr → g.tt = tm →
      s ≤ e → (g.numdate = s ∨ g.numdate = e) →
      g ∈ dateRangeGames all pid yr tm s e) ∧
    (calculate_player_averages_by_date_range all pid yr tm s e =
      if dateRangeGames all pid yr tm s e = [] then none
      else calculate_averages_for_games (dateRangeGames all pid yr tm s e)
        pid yr tm (resolvePlayerName (dateRangeGames all pid yr tm s e))) := by
  have hmem : ∀ g : GameStats, g ∈ dateRangeGames all pid yr tm s e ↔
      (g ∈ all ∧ g.pid = some pid ∧ g.year = some yr ∧ g.tt = tm ∧
        s ≤ g.numdate ∧ g.numdate ≤ e) := by
    intro g
    simp [dateRangeGames, List.mem_filter, matchesPlayer, and_assoc]
  refine ⟨hmem, ?_, ?_⟩
  · intro g hg h1 h2 h3 hse hor
    refine (hmem g).mpr ⟨hg, h1, h2, h3, ?_, ?_⟩
    · rcases hor with h | h
      · rw [h]
      · rw [h]
        exact hse
    · rcases hor with h | h
      · rw [h]
        exact hse
      · rw [h]
  · by_cases hs : dateRangeGames all pid yr tm s e = []
    · rw [if_pos hs]
      simp only [calculate_player_averages_by_date_range, hs]
      rfl
    · rw [if_neg hs]
      simp only [calculate_player_averages_by_date_range]
      rw [if_neg (by simpa [List.isEmpty_iff] using hs)]

/-- C7 witness: a matching game whose key equals the start (here also the
end) of the range is included. -/
theorem claim_C7_witness :
    cg1 ∈ dateRangeGames [cg1, cg2] 1 2024 "A" "20240101" "20240101" :=
  (claim_C7 [cg1, cg2] 1 2024 "A" "20240101" "20240101").2.1 cg1
    (by decide) (by decide) (by decide) (by decide) (le_refl _) (Or.inl (by decide))

end Mater
